import Mathlib

/-!
Verification development for the BackDash backtest engine.

The TypeScript sources embedded here:
  * `src/utils/technicalIndicators.ts` — indicator computations (EMA, RSI,
    MACD, SMA, Bollinger) with a module-level memoization cache;
  * `src/utils/backtestEngine.ts` — `runBacktest`, `checkConditions`,
    `calculateMetrics`, `calculateDrawdown`.

Modelling conventions:
  * JS numbers are modelled as exact rationals (ℚ); the claims under study
    are about algebraic structure, not floating-point rounding.
  * JS arrays with holes (slots never assigned) are `List (Option ℚ)`;
    an unassigned slot is `none` and `x || 0` is `Option.getD · 0`.
  * Fallible code (the `equity.length = negative` RangeError) is `Except`.
  * The module-level caches are modelled explicitly as association lists
    threaded through the cached entry points (`calculateEMACached`), keyed
    exactly as the source keys them.  The pure `calculateEMA` etc. below
    are the cache-miss computations.  `getIndicatorValue` is modelled as
    its cache-miss computation: within one run over one fixed data array
    its per-value cache is observationally pure, and the cross-run cache
    staleness is analysed separately on `calculateEMACached`.
-/

/-- OHLCV bar (source: `src/types.ts`, interface `OHLCVData`).  The field
`open` is spelled `open_` because `open` is a Lean keyword. -/
structure OHLCVData where
  timestamp : ℚ
  open_ : ℚ
  high : ℚ
  low : ℚ
  close : ℚ
  volume : ℚ
deriving DecidableEq, Repr

/-- Strategy condition (source: `src/types.ts`, interface `Condition`). -/
structure Condition where
  id : String
  indicator : String
  operator : String
  value : ℚ
deriving DecidableEq, Repr

/-- Risk management block (source: `src/types.ts`). -/
structure RiskManagement where
  stopLoss : ℚ
  takeProfit : ℚ
  positionSize : ℚ
deriving DecidableEq, Repr

/-- Strategy definition (source: `src/types.ts`, interface `Strategy`). -/
structure Strategy where
  name : String
  asset : String
  entryConditions : List Condition
  exitConditions : List Condition
  riskManagement : RiskManagement
deriving DecidableEq, Repr

/-- The position state variable `currentPosition : 'none' | 'long' | 'short'`
of `runBacktest`; the source string `'none'` is the constructor `flat`. -/
inductive PositionState where
  | flat
  | long
  | short
deriving DecidableEq, Repr

/-- Closed trade record (source: `src/types.ts`, interface `Trade`).  The
source stores the position string in `type`; here it is the matching
`PositionState` value (`flat` never occurs, trades are only pushed while a
position is open). -/
structure Trade where
  id : String
  entryPrice : ℚ
  exitPrice : ℚ
  entryTime : ℚ
  exitTime : ℚ
  quantity : ℚ
  pnl : ℚ
  pnlPercent : ℚ
  type : PositionState
deriving DecidableEq, Repr

/-- JS `a[i] = v` on an array of holes: in-range assignment sets the slot,
out-of-range assignment extends the array with holes up to index `i`.
Used by `calculateEMA`, whose seed write `ema[period - 1] = ...` can land
beyond `data.length` when the input is shorter than the period. -/
def jsArraySet (l : List (Option ℚ)) (i : ℕ) (v : ℚ) : List (Option ℚ) :=
  if i < l.length then l.set i (some v)
  else l ++ List.replicate (i - l.length) none ++ [some v]

/-- The EMA recurrence loop of `calculateEMA` (source:
`technicalIndicators.ts` lines 32-34): starting at index `i` with previous
value `prev`, produce `n` chained values
`cur = (data[i] - prev) * mult + prev`. -/
def emaLoop (data : List ℚ) (mult : ℚ) : ℕ → ℕ → ℚ → List ℚ
  | _, 0, _ => []
  | i, Nat.succ n, prev =>
    let cur := (data.getD i 0 - prev) * mult + prev
    cur :: emaLoop data mult (i + 1) n cur

/-- Cache-miss body of `calculateEMA` (source: `technicalIndicators.ts`
lines 17-40).  `ema = new Array(data.length)` of holes; the seed
`ema[period-1] = (sum of the first min(period, len) inputs) / period`
(a JS assignment that extends the array when `period - 1 ≥ len`); then the
recurrence fills indices `period ≤ i < len`.  Intended for `period ≥ 1`
(the source's callers pass 9..26; `period = 0` would hit JS negative-index
property semantics that no claim exercises). -/
def calculateEMA (data : List ℚ) (period : ℕ) : List (Option ℚ) :=
  let len := data.length
  let mult : ℚ := 2 / ((period : ℚ) + 1)
  let seed : ℚ := ((data.take period).sum) / (period : ℚ)
  if len ≤ period then
    jsArraySet (List.replicate len none) (period - 1) seed
  else
    List.replicate (period - 1) none ++
      some seed :: (emaLoop data mult period (len - period) seed).map some

/-- The Wilder-smoothing loop of `calculateRSI` (source:
`technicalIndicators.ts` lines 75-83): for `n` indices starting at `i`,
update the average gain/loss (only when `i > period`) and emit the RSI
value; `avgLoss || 1` is the zero guard of line 81. -/
def rsiLoop (gains losses : List ℚ) (period : ℕ) : ℕ → ℕ → ℚ → ℚ → List ℚ
  | _, 0, _, _ => []
  | i, Nat.succ n, avgGain, avgLoss =>
    let avgGain' := if period < i then
        (avgGain * ((period : ℚ) - 1) + gains.getD (i - 1) 0) / (period : ℚ)
      else avgGain
    let avgLoss' := if period < i then
        (avgLoss * ((period : ℚ) - 1) + losses.getD (i - 1) 0) / (period : ℚ)
      else avgLoss
    let rs := avgGain' / (if avgLoss' = 0 then 1 else avgLoss')
    (100 - 100 / (1 + rs)) :: rsiLoop gains losses period (i + 1) n avgGain' avgLoss'

/-- Cache-miss body of `calculateRSI` (source: `technicalIndicators.ts`
lines 42-88).  Short inputs (`len < period + 1`) return the all-holes
array; otherwise indices `< period` are holes and indices `≥ period` carry
the smoothed RSI. -/
def calculateRSI (data : List ℚ) (period : ℕ) : List (Option ℚ) :=
  let len := data.length
  if len < period + 1 then List.replicate len none
  else
    let diffs := List.zipWith (fun b a => b - a) (data.drop 1) data
    let gains := diffs.map (fun c => if 0 < c then c else 0)
    let losses := diffs.map (fun c => if c < 0 then -c else 0)
    let avgGain := ((gains.take period).sum) / (period : ℚ)
    let avgLoss := ((losses.take period).sum) / (period : ℚ)
    List.replicate period none ++
      (rsiLoop gains losses period period (len - period) avgGain avgLoss).map some

/-- Alignment loop of `calculateMACD` (source: `technicalIndicators.ts`
lines 120-128): walk the macd line; at each defined slot consume the next
`signal` entry, producing the `(signalLine, histogram)` pair for that
index (holes where either side is undefined). -/
def macdAlign (signal : List (Option ℚ)) : List (Option ℚ) → ℕ → List (Option ℚ × Option ℚ)
  | [], _ => []
  | Option.none :: rest, j => (none, none) :: macdAlign signal rest j
  | Option.some m :: rest, j =>
    match signal.getD j none with
    | Option.some s => (some s, some (m - s)) :: macdAlign signal rest (j + 1)
    | Option.none => (none, none) :: macdAlign signal rest (j + 1)

/-- Cache-miss body of `calculateMACD` (source: `technicalIndicators.ts`
lines 91-135), returning `(macdLine, signalLine, histogram)`. -/
def calculateMACD (data : List ℚ) (fastPeriod slowPeriod signalPeriod : ℕ) :
    List (Option ℚ) × List (Option ℚ) × List (Option ℚ) :=
  let fastEMA := calculateEMA data fastPeriod
  let slowEMA := calculateEMA data slowPeriod
  let macdLine := (List.range data.length).map (fun i =>
    match fastEMA.getD i none, slowEMA.getD i none with
    | Option.some a, Option.some b => some (a - b)
    | _, _ => none)
  let validMACD := macdLine.filterMap id
  let signal := calculateEMA validMACD signalPeriod
  let aligned := macdAlign signal macdLine 0
  (macdLine, aligned.map Prod.fst, aligned.map Prod.snd)

/-- JS `'x'.split(sep)` over the character list: maximal split, keeping
empty segments (so `"EMA_" → ["EMA", ""]` and `"" → [""]`). -/
def splitOnChar (sep : Char) : List Char → List (List Char)
  | [] => [[]]
  | c :: rest =>
    match splitOnChar sep rest with
    | [] => [[]]
    | h :: t => if c = sep then [] :: h :: t else (c :: h) :: t

/-- Decimal digits to a number. -/
def digitsToNat (ds : List Char) : ℕ :=
  ds.foldl (fun n c => n * 10 + (c.toNat - 48)) 0

/-- Leading-decimal-digit parse, the behaviour of JS `parseInt` on the
strings reaching it here (`none` when the string has no leading digit,
where JS produces `NaN`). -/
def parseIntLeading (s : List Char) : Option ℕ :=
  let digits := s.takeWhile Char.isDigit
  if digits.isEmpty then none
  else some (digitsToNat digits)

/-- Cache-miss body of `getIndicatorValue` (source:
`technicalIndicators.ts` lines 151-192): slice the closes up to `index`,
dispatch on the indicator name, and coerce an undefined slot to 0
(`|| 0`).  Unknown names log a warning and yield 0.  An `EMA_` name with
an unparseable period makes the JS `calculateEMA` produce an all-holes
array (NaN period), hence 0 here. -/
def getIndicatorValue (data : List OHLCVData) (indicator : String) (index : ℕ) : ℚ :=
  let prices := (data.take (index + 1)).map (fun d => d.close)
  let currentIndex := prices.length - 1
  if indicator = "EMA (20)" then
    ((calculateEMA prices 20).getD currentIndex none).getD 0
  else if indicator = "RSI (14)" then
    ((calculateRSI prices 14).getD currentIndex none).getD 0
  else if indicator = "MACD (12, 26, 9)" then
    (((calculateMACD prices 12 26 9).1).getD currentIndex none).getD 0
  else if indicator = "Bollinger Bands (20, 2)" then
    0
  else if indicator = "Price" then
    (match data.get? index with
     | Option.some d => d.close
     | Option.none => 0)
  else if "EMA_".toList.isPrefixOf indicator.toList then
    let part := (splitOnChar '_' indicator.toList).getD 1 []
    let part := if part = [] then "20".toList else part
    match parseIntLeading part with
    | Option.some period => ((calculateEMA prices period).getD currentIndex none).getD 0
    | Option.none => 0
  else
    0

/-- The module-level indicator cache (source: `technicalIndicators.ts`
line 3, `new Map<string, number[]>()`): an insertion-ordered association
list from key strings to computed series, exactly as a JS `Map`. -/
abbrev IndicatorCache : Type := List (String × List (Option ℚ))

/-- JS `Map.get` — first (and only) binding of the key. -/
def cacheLookup (c : IndicatorCache) (key : String) : Option (List (Option ℚ)) :=
  match c.find? (fun p => p.1 = key) with
  | Option.some p => some p.2
  | Option.none => none

/-- JS `Map.set`: replace in place when present, append otherwise. -/
def cacheSet (c : IndicatorCache) (key : String) (v : List (Option ℚ)) : IndicatorCache :=
  match c.find? (fun p => p.1 = key) with
  | Option.some _ => c.map (fun p => if p.1 = key then (key, v) else p)
  | Option.none => c ++ [(key, v)]

/-- Eviction policy `clearCacheIfNeeded` (source: `technicalIndicators.ts`
lines 6-15): when the map exceeds 200 entries, keep only the last
`floor(200 * 0.7) = 140` insertions. -/
def clearCacheIfNeeded (c : IndicatorCache) : IndicatorCache :=
  if 200 < c.length then c.drop (c.length - 140) else c

/-- `calculateEMA` with its cache (source: `technicalIndicators.ts` lines
17-40): key `EMA_${period}_${data.length}` — the key carries the period
and the input LENGTH but not the input values.  A hit returns the cached
series; a miss computes, stores, and runs the eviction check. -/
def calculateEMACached (cache : IndicatorCache) (data : List ℚ) (period : ℕ) :
    List (Option ℚ) × IndicatorCache :=
  let cacheKey := "EMA_" ++ toString period ++ "_" ++ toString data.length
  match cacheLookup cache cacheKey with
  | Option.some v => (v, cache)
  | Option.none =>
    let ema := calculateEMA data period
    (ema, clearCacheIfNeeded (cacheSet cache cacheKey ema))

/-- One condition of `checkConditions` (source: `backtestEngine.ts` lines
99-117): resolve the indicator value and apply the operator; `=` and `!=`
use the absolute 0.01 tolerance; an unknown operator yields `false`. -/
def evalCondition (data : List OHLCVData) (index : ℕ) (c : Condition) : Bool :=
  let indicatorValue := getIndicatorValue data c.indicator index
  if c.operator = ">" then decide (indicatorValue > c.value)
  else if c.operator = "<" then decide (indicatorValue < c.value)
  else if c.operator = ">=" then decide (indicatorValue ≥ c.value)
  else if c.operator = "<=" then decide (indicatorValue ≤ c.value)
  else if c.operator = "=" then decide (|indicatorValue - c.value| < 1/100)
  else if c.operator = "!=" then decide (|indicatorValue - c.value| ≥ 1/100)
  else false

/-- `checkConditions` (source: `backtestEngine.ts` line 98-119):
`conditions.every(...)` — logical AND, vacuously true on `[]`. -/
def checkConditions (data : List OHLCVData) (conditions : List Condition) (index : ℕ) : Bool :=
  conditions.all (evalCondition data index)

/-- The mutable locals of the `runBacktest` loop gathered into a state
record (source: `backtestEngine.ts` lines 5-12).  `equity` holds the
initial 10000 deposit followed by the values written by
`equity[equityIndex++] = portfolioValue`, in order. -/
structure RunState where
  trades : List Trade
  currentPosition : PositionState
  entryPrice : ℚ
  entryTime : ℚ
  positionSize : ℚ
  portfolioValue : ℚ
  equity : List ℚ
  returns : List ℚ
deriving DecidableEq, Repr

/-- Exit block of the loop body (source: `backtestEngine.ts` lines 29-64):
while a position is open, exit when the exit conditions hold or — long
positions only — the close breaches the stop-loss or take-profit level;
on exit push the Trade, realize the P&L into `portfolioValue`, record the
percent return, and go flat. -/
def exitStage (strategy : Strategy) (data : List OHLCVData)
    (stopLossMultiplier takeProfitMultiplier : ℚ)
    (i : ℕ) (bar : OHLCVData) (s : RunState) : RunState :=
  if s.currentPosition = PositionState.flat then s
  else
    let shouldExit := checkConditions data strategy.exitConditions i
    let exitTriggered := shouldExit ||
      (decide (s.currentPosition = PositionState.long) &&
        (decide (bar.close ≤ s.entryPrice * stopLossMultiplier) ||
         decide (bar.close ≥ s.entryPrice * takeProfitMultiplier)))
    if exitTriggered then
      let pnl := if s.currentPosition = PositionState.long then
          (bar.close - s.entryPrice) * s.positionSize
        else
          (s.entryPrice - bar.close) * s.positionSize
      let pnlPercent := pnl / (s.entryPrice * s.positionSize) * 100
      let trade : Trade :=
        { id := "trade_" ++ toString (s.trades.length + 1)
          entryPrice := s.entryPrice
          exitPrice := bar.close
          entryTime := s.entryTime
          exitTime := bar.timestamp
          quantity := s.positionSize
          pnl := pnl
          pnlPercent := pnlPercent
          type := s.currentPosition }
      { s with trades := s.trades ++ [trade]
               portfolioValue := s.portfolioValue + pnl
               returns := s.returns ++ [pnlPercent]
               currentPosition := PositionState.flat }
    else s

/-- Entry block of the loop body (source: `backtestEngine.ts` lines
66-75): when flat and the entry conditions hold, open a long position at
the bar's close with `positionSize = Math.floor(portfolioValue * 0.95 /
currentPrice)` — the hardcoded 95% sizing of line 73. -/
def entryStage (strategy : Strategy) (data : List OHLCVData)
    (i : ℕ) (bar : OHLCVData) (s : RunState) : RunState :=
  if s.currentPosition = PositionState.flat &&
      checkConditions data strategy.entryConditions i then
    { s with currentPosition := PositionState.long
             entryPrice := bar.close
             entryTime := bar.timestamp
             positionSize := ((⌊s.portfolioValue * (95/100) / bar.close⌋ : ℤ) : ℚ) }
  else s

/-- Equity write of the loop body (source: `backtestEngine.ts` line 77). -/
def recordEquity (s : RunState) : RunState :=
  { s with equity := s.equity ++ [s.portfolioValue] }

/-- One iteration of the `runBacktest` loop for bar index `i` (source:
`backtestEngine.ts` lines 23-78).  A missing bar or a falsy (zero) close
is `continue` — nothing happens, not even the equity write. -/
def stepBar (strategy : Strategy) (data : List OHLCVData)
    (stopLossMultiplier takeProfitMultiplier : ℚ)
    (s : RunState) (i : ℕ) : RunState :=
  match data.get? i with
  | Option.none => s
  | Option.some bar =>
    if bar.close = 0 then s
    else
      recordEquity (entryStage strategy data i bar
        (exitStage strategy data stopLossMultiplier takeProfitMultiplier i bar s))

/-- The warm-up start offset (source: `backtestEngine.ts` line 17):
`Math.max(50, Math.floor(data.length * 0.1))`. -/
def startIndexOf (data : List OHLCVData) : ℕ :=
  max 50 (data.length / 10)

/-- Initial loop state (source: `backtestEngine.ts` lines 5-12). -/
def initialRunState (strategy : Strategy) : RunState :=
  { trades := []
    currentPosition := PositionState.flat
    entryPrice := 0
    entryTime := 0
    positionSize := strategy.riskManagement.positionSize
    portfolioValue := 10000
    equity := [10000]
    returns := [] }

/-- The whole simulation loop of `runBacktest`: fold `stepBar` over the
bar indices from the warm-up offset to the end of the series. -/
def runLoop (data : List OHLCVData) (strategy : Strategy) : RunState :=
  let stopLossMultiplier := 1 - strategy.riskManagement.stopLoss / 100
  let takeProfitMultiplier := 1 + strategy.riskManagement.takeProfit / 100
  let startIndex := startIndexOf data
  (List.range' startIndex (data.length - startIndex)).foldl
    (stepBar strategy data stopLossMultiplier takeProfitMultiplier)
    (initialRunState strategy)

/-- JS `Math.max(...l)` over a non-empty list (the engine only applies it
to the equity array, which always holds the initial deposit; the empty
case, JS `-Infinity`, is given the junk value 0). -/
def listMax : List ℚ → ℚ
  | [] => 0
  | h :: t => t.foldl max h

/-- JS `Math.min(...l)` over a non-empty list (empty case junk 0). -/
def listMin : List ℚ → ℚ
  | [] => 0
  | h :: t => t.foldl min h

/-- Ascending insertion of one element, for `sortAsc`. -/
def insertAsc (x : ℚ) : List ℚ → List ℚ
  | [] => [x]
  | h :: t => if x ≤ h then x :: h :: t else h :: insertAsc x t

/-- JS `returns.sort((a, b) => a - b)` — ascending numeric sort. -/
def sortAsc : List ℚ → List ℚ
  | [] => []
  | h :: t => insertAsc h (sortAsc t)

/-- The Metrics record (source: `src/types.ts`, interface
`BacktestMetrics`), restricted to the fields whose values are rational.
The source fields `cagr`, `sharpe`, `sortino`, `calmar` and `volatility`
involve `Math.pow` with a fractional exponent or `Math.sqrt(252)` and are
irrational-valued; no claim under study depends on their values, so they
are not carried in the embedding. -/
structure BacktestMetrics where
  totalPnL : ℚ
  totalPnLPercent : ℚ
  maxDrawdown : ℚ
  maxDrawdownPercent : ℚ
  tradeCount : ℕ
  winRate : ℚ
  avgTradeDuration : ℚ
  largestWin : ℚ
  largestLoss : ℚ
  turnover : ℚ
  var95 : ℚ
  leverage : ℚ
  beta : ℚ
deriving DecidableEq, Repr

/-- The `totalTrades === 0` early return of `calculateMetrics` (source:
`backtestEngine.ts` lines 124-145): every field 0 except `beta = 1.0`. -/
def zeroMetrics : BacktestMetrics :=
  { totalPnL := 0
    totalPnLPercent := 0
    maxDrawdown := 0
    maxDrawdownPercent := 0
    tradeCount := 0
    winRate := 0
    avgTradeDuration := 0
    largestWin := 0
    largestLoss := 0
    turnover := 0
    var95 := 0
    leverage := 0
    beta := 1 }

/-- `calculateMetrics` (source: `backtestEngine.ts` lines 121-195).  Note
the drawdown fields (lines 165-169): they are computed from the FIRST
position of the global equity maximum (`Math.max` / `indexOf` / the
minimum over the suffix from there), not from the running-peak drawdown
series of `calculateDrawdown`. -/
def calculateMetrics (trades : List Trade) (returns : List ℚ) (equity : List ℚ) :
    BacktestMetrics :=
  let totalTrades := trades.length
  if totalTrades = 0 then zeroMetrics
  else
    let winningTrades := trades.filter (fun t => 0 < t.pnl)
    let losingTrades := trades.filter (fun t => t.pnl < 0)
    let totalPnL := (trades.map (fun t => t.pnl)).sum
    let totalPnLPercent := totalPnL / 10000 * 100
    let maxEquity := listMax equity
    let maxEquityIndex := equity.indexOf maxEquity
    let minEquityAfterMax := listMin (equity.drop maxEquityIndex)
    let maxDrawdown := maxEquity - minEquityAfterMax
    let maxDrawdownPercent := maxDrawdown / maxEquity * 100
    { totalPnL := totalPnL
      totalPnLPercent := totalPnLPercent
      maxDrawdown := maxDrawdown
      maxDrawdownPercent := maxDrawdownPercent
      tradeCount := totalTrades
      winRate := ((winningTrades.length : ℚ) / (totalTrades : ℚ)) * 100
      avgTradeDuration :=
        ((trades.map (fun t => t.exitTime - t.entryTime)).sum) / (totalTrades : ℚ)
          / (1000 * 60 * 60 * 24)
      largestWin := if winningTrades.length ≠ 0 then
          listMax (winningTrades.map (fun t => t.pnlPercent)) else 0
      largestLoss := if losingTrades.length ≠ 0 then
          listMin (losingTrades.map (fun t => t.pnlPercent)) else 0
      turnover := 100
      var95 := if returns.length ≠ 0 then
          (sortAsc returns).getD (returns.length / 20) 0 else 0
      leverage := 95
      beta := 1 }

/-- Running-peak loop of `calculateDrawdown` (source: `backtestEngine.ts`
lines 201-206): raise the peak when exceeded, emit
`(peak - value) / peak * 100`. -/
def ddLoop (peak : ℚ) : List ℚ → List ℚ
  | [] => []
  | v :: rest =>
    let p := if peak < v then v else peak
    ((p - v) / p * 100) :: ddLoop p rest

/-- `calculateDrawdown` (source: `backtestEngine.ts` lines 197-209): the
per-bar drawdown series against the running peak, seeded at `equity[0]`. -/
def calculateDrawdown (equity : List ℚ) : List ℚ :=
  match equity with
  | [] => []
  | h :: _ => ddLoop h equity

/-- Backtest result record (source: `src/types.ts`, `BacktestResult`). -/
structure BacktestResult where
  trades : List Trade
  metrics : BacktestMetrics
  equity : List ℚ
  drawdown : List ℚ
  benchmark : List ℚ
deriving DecidableEq, Repr

/-- `runBacktest` (source: `backtestEngine.ts` lines 4-96).  The presize
`equity.length = data.length - startIndex + 1` throws a JS RangeError
when that quantity is negative (every series of at most `startIndex - 2`
bars), modelled as `Except.error`.  In the boundary case
`data.length = startIndex - 1` the presize truncates away the initial
deposit and the returned equity array holds a single hole (and the
drawdown series `[NaN]`); that non-numeric edge is outside ℚ and outside
every claim, and the model keeps the deposit entry there instead. -/
def runBacktest (data : List OHLCVData) (strategy : Strategy) :
    Except String BacktestResult :=
  let startIndex := startIndexOf data
  if data.length + 1 < startIndex then
    Except.error "RangeError: Invalid array length"
  else
    let s := runLoop data strategy
    let metrics := calculateMetrics s.trades s.returns s.equity
    let drawdown := calculateDrawdown s.equity
    let benchmark := if startIndex < data.length then
        (data.drop startIndex).map (fun d =>
          d.close / (((data.get? startIndex).map (fun b => b.close)).getD 0)
            * s.portfolioValue)
      else []
    Except.ok
      { trades := s.trades
        metrics := metrics
        equity := s.equity
        drawdown := drawdown
        benchmark := benchmark }

/-- A flat synthetic bar: timestamp `t`, all prices `c`, zero volume. -/
def mkBar (t c : ℚ) : OHLCVData :=
  { timestamp := t, open_ := c, high := c, low := c, close := c, volume := 0 }

/-- Warm-up padding: `n` bars with close 1000 at timestamps `0..n-1`;
these sit below the warm-up offset and are never visited by the loop. -/
def padBars (n : ℕ) : List OHLCVData :=
  (List.range n).map (fun i => mkBar (i : ℚ) 1000)

/-- A 56-bar series: 50 padding bars, then closes 50, 40, 50, 100, 50, 49
at timestamps 50..55.  With `mddStrategy` it produces three trades
(stop-loss loss, take-profit win past the old equity peak, small
condition-exit loss). -/
def mddData : List OHLCVData :=
  padBars 50 ++
    [mkBar 50 50, mkBar 51 40, mkBar 52 50, mkBar 53 100, mkBar 54 50, mkBar 55 49]

/-- Price-equality entry at 50, price-equality exit at 49, 20% stop loss,
100% take profit, `positionSize` set to 50 percent. -/
def mddStrategy : Strategy :=
  { name := "mdd", asset := "TEST"
    entryConditions := [{ id := "e1", indicator := "Price", operator := "=", value := 50 }]
    exitConditions := [{ id := "x1", indicator := "Price", operator := "=", value := 49 }]
    riskManagement := { stopLoss := 20, takeProfit := 100, positionSize := 50 } }

/-- The loop step of the `mddData`/`mddStrategy` run with its stop/take
multipliers filled in. -/
def mddStep (s : RunState) (i : ℕ) : RunState :=
  stepBar mddStrategy mddData (1 - mddStrategy.riskManagement.stopLoss / 100)
    (1 + mddStrategy.riskManagement.takeProfit / 100) s i

/-- First trade of the run: stop-loss exit, realized loss 1900. -/
def mddTrade1 : Trade :=
  { id := "trade_1", entryPrice := 50, exitPrice := 40, entryTime := 50, exitTime := 51
    quantity := 190, pnl := -1900, pnlPercent := -20, type := PositionState.long }

/-- Second trade: take-profit exit, realized gain 7650 (new equity peak). -/
def mddTrade2 : Trade :=
  { id := "trade_2", entryPrice := 50, exitPrice := 100, entryTime := 52, exitTime := 53
    quantity := 153, pnl := 7650, pnlPercent := 100, type := PositionState.long }

/-- Third trade: exit-condition close, small realized loss 299. -/
def mddTrade3 : Trade :=
  { id := "trade_3", entryPrice := 50, exitPrice := 49, entryTime := 54, exitTime := 55
    quantity := 299, pnl := -299, pnlPercent := -2, type := PositionState.long }

/-- Run state after bar 50 (entry at close 50, 190 units). -/
def mddState1 : RunState :=
  { trades := [], currentPosition := PositionState.long, entryPrice := 50, entryTime := 50
    positionSize := 190, portfolioValue := 10000, equity := [10000, 10000], returns := [] }

/-- Run state after bar 51 (stop-loss exit at 40). -/
def mddState2 : RunState :=
  { trades := [mddTrade1], currentPosition := PositionState.flat, entryPrice := 50
    entryTime := 50, positionSize := 190, portfolioValue := 8100
    equity := [10000, 10000, 8100], returns := [-20] }

/-- Run state after bar 52 (re-entry at close 50, 153 units). -/
def mddState3 : RunState :=
  { trades := [mddTrade1], currentPosition := PositionState.long, entryPrice := 50
    entryTime := 52, positionSize := 153, portfolioValue := 8100
    equity := [10000, 10000, 8100, 8100], returns := [-20] }

/-- Run state after bar 53 (take-profit exit at 100). -/
def mddState4 : RunState :=
  { trades := [mddTrade1, mddTrade2], currentPosition := PositionState.flat, entryPrice := 50
    entryTime := 52, positionSize := 153, portfolioValue := 15750
    equity := [10000, 10000, 8100, 8100, 15750], returns := [-20, 100] }

/-- Run state after bar 54 (entry at close 50, 299 units). -/
def mddState5 : RunState :=
  { trades := [mddTrade1, mddTrade2], currentPosition := PositionState.long, entryPrice := 50
    entryTime := 54, positionSize := 299, portfolioValue := 15750
    equity := [10000, 10000, 8100, 8100, 15750, 15750], returns := [-20, 100] }

/-- Final run state after bar 55 (condition exit at 49). -/
def mddState6 : RunState :=
  { trades := [mddTrade1, mddTrade2, mddTrade3], currentPosition := PositionState.flat
    entryPrice := 50, entryTime := 54, positionSize := 299, portfolioValue := 15451
    equity := [10000, 10000, 8100, 8100, 15750, 15750, 15451], returns := [-20, 100, -2] }

unseal Rat.add Rat.mul Rat.inv Rat.sub in
theorem mddStep50 : mddStep (initialRunState mddStrategy) 50 = mddState1 := by
  decide

unseal Rat.add Rat.mul Rat.inv Rat.sub in
theorem mddStep51 : mddStep mddState1 51 = mddState2 := by
  decide

unseal Rat.add Rat.mul Rat.inv Rat.sub in
theorem mddStep52 : mddStep mddState2 52 = mddState3 := by
  decide

unseal Rat.add Rat.mul Rat.inv Rat.sub in
theorem mddStep53 : mddStep mddState3 53 = mddState4 := by
  decide

unseal Rat.add Rat.mul Rat.inv Rat.sub in
theorem mddStep54 : mddStep mddState4 54 = mddState5 := by
  decide

unseal Rat.add Rat.mul Rat.inv Rat.sub in
theorem mddStep55 : mddStep mddState5 55 = mddState6 := by
  decide

theorem runLoop_mdd : runLoop mddData mddStrategy = mddState6 := by
  have h : runLoop mddData mddStrategy
      = (List.range' 50 6).foldl mddStep (initialRunState mddStrategy) := rfl
  have hr : List.range' 50 6 = [50, 51, 52, 53, 54, 55] := rfl
  rw [h, hr]
  simp only [List.foldl]
  rw [mddStep50, mddStep51, mddStep52, mddStep53, mddStep54, mddStep55]

/-- The full output of `runBacktest` on `mddData`/`mddStrategy`. -/
def mddResult : BacktestResult :=
  { trades := [mddTrade1, mddTrade2, mddTrade3]
    metrics :=
      { totalPnL := 5451, totalPnLPercent := 5451/100, maxDrawdown := 299
        maxDrawdownPercent := 598/315, tradeCount := 3, winRate := 100/3
        avgTradeDuration := 1/86400000, largestWin := 100, largestLoss := -20
        turnover := 100, var95 := -20, leverage := 95, beta := 1 }
    equity := [10000, 10000, 8100, 8100, 15750, 15750, 15451]
    drawdown := [0, 0, 19, 19, 0, 0, 598/315]
    benchmark := [15451, 61804/5, 15451, 30902, 15451, 757099/50] }

unseal Rat.add Rat.mul Rat.inv Rat.sub in
theorem runBacktest_mdd : runBacktest mddData mddStrategy = Except.ok mddResult := by
  simp only [runBacktest, runLoop_mdd]
  norm_num [startIndexOf, mddData, padBars]
  refine congrArg Except.ok ?_
  decide

/-- Fold preservation: a property of the loop state kept by every step is
kept by the whole loop. -/
theorem foldl_inv {α σ : Type} (f : σ → α → σ) (P : σ → Prop)
    (h : ∀ s a, P s → P (f s a)) : ∀ (l : List α) (s : σ), P s → P (l.foldl f s)
  | [], _, hs => hs
  | a :: l, s, hs => foldl_inv f P h l (f s a) (h s a hs)

/-- Case analysis of `exitStage`: either the state is untouched, or a
position was open, one trade was appended whose fields are copied from the
position and the bar, its realized P&L entered the portfolio value, and
the position is now flat; all other fields are unchanged. -/
theorem exitStage_spec (strategy : Strategy) (data : List OHLCVData)
    (stopM takeM : ℚ) (i : ℕ) (bar : OHLCVData) (s : RunState) :
    exitStage strategy data stopM takeM i bar s = s ∨
    (s.currentPosition ≠ PositionState.flat ∧
     ∃ t : Trade,
       exitStage strategy data stopM takeM i bar s =
         { s with trades := s.trades ++ [t]
                  portfolioValue := s.portfolioValue + t.pnl
                  returns := s.returns ++ [t.pnlPercent]
                  currentPosition := PositionState.flat } ∧
       t.type = s.currentPosition ∧
       t.entryPrice = s.entryPrice ∧
       t.entryTime = s.entryTime ∧
       t.exitPrice = bar.close ∧
       t.exitTime = bar.timestamp ∧
       t.quantity = s.positionSize ∧
       t.pnl = (if s.currentPosition = PositionState.long
                then (bar.close - s.entryPrice) * s.positionSize
                else (s.entryPrice - bar.close) * s.positionSize)) := by
  by_cases h1 : s.currentPosition = PositionState.flat
  · left
    simp [exitStage, h1]
  · by_cases h2 :
      (checkConditions data strategy.exitConditions i ||
        (decide (s.currentPosition = PositionState.long) &&
          (decide (bar.close ≤ s.entryPrice * stopM) ||
           decide (bar.close ≥ s.entryPrice * takeM)))) = true
    · right
      refine ⟨h1, ?_⟩
      refine ⟨{ id := "trade_" ++ toString (s.trades.length + 1)
                entryPrice := s.entryPrice
                exitPrice := bar.close
                entryTime := s.entryTime
                exitTime := bar.timestamp
                quantity := s.positionSize
                pnl := if s.currentPosition = PositionState.long
                  then (bar.close - s.entryPrice) * s.positionSize
                  else (s.entryPrice - bar.close) * s.positionSize
                pnlPercent := (if s.currentPosition = PositionState.long
                  then (bar.close - s.entryPrice) * s.positionSize
                  else (s.entryPrice - bar.close) * s.positionSize)
                  / (s.entryPrice * s.positionSize) * 100
                type := s.currentPosition }, ?_, rfl, rfl, rfl, rfl, rfl, rfl, rfl⟩
      simp only [exitStage, if_neg h1, h2, if_true]
    · left
      simp [exitStage, if_neg h1, h2]

/-- Case analysis of `entryStage`: untouched unless flat with entry
conditions holding, in which case a long position is opened at the bar's
close, sized at 95% of the portfolio value; trades, equity, returns and
portfolio value are unchanged. -/
theorem entryStage_spec (strategy : Strategy) (data : List OHLCVData)
    (i : ℕ) (bar : OHLCVData) (s : RunState) :
    (entryStage strategy data i bar s = s ∧
      ¬(s.currentPosition = PositionState.flat ∧
        checkConditions data strategy.entryConditions i = true)) ∨
    (s.currentPosition = PositionState.flat ∧
     checkConditions data strategy.entryConditions i = true ∧
     entryStage strategy data i bar s =
       { s with currentPosition := PositionState.long
                entryPrice := bar.close
                entryTime := bar.timestamp
                positionSize := ((⌊s.portfolioValue * (95/100) / bar.close⌋ : ℤ) : ℚ) }) := by
  by_cases h : (decide (s.currentPosition = PositionState.flat) &&
      checkConditions data strategy.entryConditions i) = true
  · right
    have h1 : s.currentPosition = PositionState.flat := by
      have := (Bool.and_eq_true _ _).mp h
      exact of_decide_eq_true this.1
    have h2 : checkConditions data strategy.entryConditions i = true := by
      exact ((Bool.and_eq_true _ _).mp h).2
    exact ⟨h1, h2, by simp only [entryStage, h, if_true]⟩
  · left
    constructor
    · simp [entryStage, h]
    · intro hc
      exact h (by simp [hc.1, hc.2])

/-- `stepBar` case analysis, combining the two stages and the equity
write: either the bar is skipped and the state untouched, or the equity
gains exactly one entry — the post-step portfolio value — and the trade
ledger either is unchanged (with portfolio value unchanged too) or gains
exactly the one closed trade. -/
theorem stepBar_spec (strategy : Strategy) (data : List OHLCVData)
    (stopM takeM : ℚ) (s : RunState) (i : ℕ) :
    (stepBar strategy data stopM takeM s i = s) ∨
    (∃ bar : OHLCVData, data.get? i = some bar ∧ bar.close ≠ 0 ∧
      stepBar strategy data stopM takeM s i =
        recordEquity (entryStage strategy data i bar
          (exitStage strategy data stopM takeM i bar s))) := by
  unfold stepBar
  cases hbar : data.get? i with
  | none => exact Or.inl rfl
  | some bar =>
    by_cases hc : bar.close = 0
    · exact Or.inl (by simp [hc])
    · exact Or.inr ⟨bar, rfl, hc, by simp [hc]⟩

/-- `entryStage` never touches the ledger, the equity list, the returns
list or the portfolio value: opening a position is cash-neutral. -/
theorem entryStage_keeps (strategy : Strategy) (data : List OHLCVData)
    (i : ℕ) (bar : OHLCVData) (s : RunState) :
    (entryStage strategy data i bar s).trades = s.trades ∧
    (entryStage strategy data i bar s).equity = s.equity ∧
    (entryStage strategy data i bar s).portfolioValue = s.portfolioValue ∧
    (entryStage strategy data i bar s).returns = s.returns := by
  rcases entryStage_spec strategy data i bar s with ⟨h, _⟩ | ⟨_, _, h⟩ <;>
    rw [h] <;> exact ⟨rfl, rfl, rfl, rfl⟩

/-- `exitStage` never touches the equity list. -/
theorem exitStage_keeps_equity (strategy : Strategy) (data : List OHLCVData)
    (stopM takeM : ℚ) (i : ℕ) (bar : OHLCVData) (s : RunState) :
    (exitStage strategy data stopM takeM i bar s).equity = s.equity := by
  rcases exitStage_spec strategy data stopM takeM i bar s with h | ⟨_, t, h, _⟩ <;> rw [h]

/-- Loop invariant behind C9 and C10: the engine is never short, and every
trade in the ledger is a long trade whose P&L is exactly
`(exitPrice - entryPrice) * quantity`. -/
theorem runLoop_trades_inv (data : List OHLCVData) (strategy : Strategy) :
    (runLoop data strategy).currentPosition ≠ PositionState.short ∧
    ∀ t ∈ (runLoop data strategy).trades,
      t.type = PositionState.long ∧
      t.pnl = (t.exitPrice - t.entryPrice) * t.quantity := by
  unfold runLoop
  apply foldl_inv _ (fun s : RunState =>
    s.currentPosition ≠ PositionState.short ∧
    ∀ t ∈ s.trades, t.type = PositionState.long ∧
      t.pnl = (t.exitPrice - t.entryPrice) * t.quantity)
  · intro s i hs
    rcases stepBar_spec strategy data
        (1 - strategy.riskManagement.stopLoss / 100)
        (1 + strategy.riskManagement.takeProfit / 100) s i with h | ⟨bar, _, _, h⟩
    · rw [h]; exact hs
    · rw [h]
      have hexit := exitStage_spec strategy data
        (1 - strategy.riskManagement.stopLoss / 100)
        (1 + strategy.riskManagement.takeProfit / 100) i bar s
      set es := exitStage strategy data
        (1 - strategy.riskManagement.stopLoss / 100)
        (1 + strategy.riskManagement.takeProfit / 100) i bar s with hes
      have hesInv : es.currentPosition ≠ PositionState.short ∧
          ∀ t ∈ es.trades, t.type = PositionState.long ∧
            t.pnl = (t.exitPrice - t.entryPrice) * t.quantity := by
        rcases hexit with h' | ⟨hflat, t, h', hty, hep, _, hxp, _, hq, hpnl⟩
        · rw [h']; exact hs
        · have hlong : s.currentPosition = PositionState.long := by
            cases hcp : s.currentPosition with
            | flat => exact absurd hcp hflat
            | long => rfl
            | short => exact absurd hcp hs.1
          rw [h']
          refine ⟨by simp, ?_⟩
          intro u hu
          simp only [List.mem_append, List.mem_singleton] at hu
          rcases hu with hu | hu
          · exact hs.2 u hu
          · subst hu
            refine ⟨by rw [hty, hlong], ?_⟩
            rw [hpnl, if_pos hlong, hxp, hep, hq]
      rcases entryStage_spec strategy data i bar es with ⟨h', _⟩ | ⟨_, _, h'⟩
      · rw [h']
        exact hesInv
      · rw [h']
        exact ⟨fun hh => PositionState.noConfusion hh, hesInv.2⟩
  · constructor
    · simp [initialRunState]
    · intro t ht
      simp [initialRunState] at ht

/-- Loop invariant: the equity list always starts with the initial 10000
deposit (the source's `equity = [portfolioValue]` with
`portfolioValue = 10000`). -/
theorem runLoop_equity_head (data : List OHLCVData) (strategy : Strategy) :
    ∃ rest : List ℚ, (runLoop data strategy).equity = 10000 :: rest := by
  unfold runLoop
  apply foldl_inv _ (fun s : RunState => ∃ rest : List ℚ, s.equity = 10000 :: rest)
  · intro s i hs
    rcases stepBar_spec strategy data
        (1 - strategy.riskManagement.stopLoss / 100)
        (1 + strategy.riskManagement.takeProfit / 100) s i with h | ⟨bar, _, _, h⟩
    · rw [h]; exact hs
    · rw [h]
      obtain ⟨rest, hrest⟩ := hs
      refine ⟨rest ++ [(entryStage strategy data i bar
        (exitStage strategy data (1 - strategy.riskManagement.stopLoss / 100)
          (1 + strategy.riskManagement.takeProfit / 100) i bar s)).portfolioValue], ?_⟩
      simp [recordEquity, (entryStage_keeps strategy data i bar _).2.1,
        exitStage_keeps_equity, hrest]
  · exact ⟨[], rfl⟩

/-- Inversion of a successful `runBacktest`: the returned record is built
from the final loop state. -/
theorem runBacktest_ok (data : List OHLCVData) (strategy : Strategy)
    (r : BacktestResult) (h : runBacktest data strategy = Except.ok r) :
    r.trades = (runLoop data strategy).trades ∧
    r.metrics = calculateMetrics (runLoop data strategy).trades
      (runLoop data strategy).returns (runLoop data strategy).equity ∧
    r.equity = (runLoop data strategy).equity ∧
    r.drawdown = calculateDrawdown (runLoop data strategy).equity := by
  unfold runBacktest at h
  by_cases hlen : data.length + 1 < startIndexOf data
  · rw [if_pos hlen] at h
    exact absurd h (by simp)
  · rw [if_neg hlen] at h
    have h' := (Except.ok.injEq _ _).mp h
    subst h'
    exact ⟨rfl, rfl, rfl, rfl⟩

/-- The seed of the fold in `listMax` never exceeds the fold's value. -/
theorem foldl_max_init_le (t : List ℚ) : ∀ h : ℚ, h ≤ t.foldl max h := by
  induction t with
  | nil => intro h; exact le_refl h
  | cons a t ih =>
    intro h
    calc h ≤ max h a := le_max_left h a
    _ ≤ t.foldl max (max h a) := ih (max h a)

/-- Every listed element is bounded by the max fold. -/
theorem foldl_max_le (t : List ℚ) : ∀ (h x : ℚ), x ∈ t → x ≤ t.foldl max h := by
  induction t with
  | nil => intro _ x hx; cases hx
  | cons a t ih =>
    intro h x hx
    rcases List.mem_cons.mp hx with hx | hx
    · subst hx
      calc x ≤ max h x := le_max_right h x
      _ ≤ t.foldl max (max h x) := foldl_max_init_le t (max h x)
    · exact ih (max h a) x hx

/-- The max fold returns its seed or a listed element. -/
theorem foldl_max_mem (t : List ℚ) : ∀ h : ℚ, t.foldl max h = h ∨ t.foldl max h ∈ t := by
  induction t with
  | nil => intro h; exact Or.inl rfl
  | cons a t ih =>
    intro h
    rcases ih (max h a) with h' | h'
    · rw [List.foldl_cons, h']
      rcases max_choice h a with hm | hm
      · exact Or.inl hm
      · exact Or.inr (by rw [hm]; exact List.mem_cons_self a t)
    · exact Or.inr (List.mem_cons_of_mem a h')

/-- The min fold never exceeds its seed. -/
theorem foldl_min_init_le (t : List ℚ) : ∀ h : ℚ, t.foldl min h ≤ h := by
  induction t with
  | nil => intro h; exact le_refl h
  | cons a t ih =>
    intro h
    calc t.foldl min (min h a) ≤ min h a := ih (min h a)
    _ ≤ h := min_le_left h a

/-- The min fold is below every listed element. -/
theorem foldl_min_le (t : List ℚ) : ∀ (h x : ℚ), x ∈ t → t.foldl min h ≤ x := by
  induction t with
  | nil => intro _ x hx; cases hx
  | cons a t ih =>
    intro h x hx
    rcases List.mem_cons.mp hx with hx | hx
    · subst hx
      calc t.foldl min (min h x) ≤ min h x := foldl_min_init_le t (min h x)
      _ ≤ x := min_le_right h x
    · exact ih (min h a) x hx

/-- The min fold returns its seed or a listed element. -/
theorem foldl_min_mem (t : List ℚ) : ∀ h : ℚ, t.foldl min h = h ∨ t.foldl min h ∈ t := by
  induction t with
  | nil => intro h; exact Or.inl rfl
  | cons a t ih =>
    intro h
    rcases ih (min h a) with h' | h'
    · rw [List.foldl_cons, h']
      rcases min_choice h a with hm | hm
      · exact Or.inl hm
      · exact Or.inr (by rw [hm]; exact List.mem_cons_self a t)
    · exact Or.inr (List.mem_cons_of_mem a h')

/-- Unfolding equation for `listMax` on a cons cell. -/
theorem listMax_cons (a : ℚ) (t : List ℚ) : listMax (a :: t) = t.foldl max a := rfl

/-- Unfolding equation for `listMin` on a cons cell. -/
theorem listMin_cons (a : ℚ) (t : List ℚ) : listMin (a :: t) = t.foldl min a := rfl

/-- `listMax` is an element of a non-empty list. -/
theorem listMax_mem (l : List ℚ) (h : l ≠ []) : listMax l ∈ l := by
  match l with
  | a :: t =>
    rcases foldl_max_mem t a with h' | h'
    · exact List.mem_cons.mpr (Or.inl ((listMax_cons a t).trans h'))
    · exact List.mem_cons.mpr (Or.inr (by rw [listMax_cons]; exact h'))

/-- Every element is bounded by `listMax`. -/
theorem le_listMax (l : List ℚ) (x : ℚ) (h : x ∈ l) : x ≤ listMax l := by
  match l with
  | a :: t =>
    rw [listMax_cons]
    rcases List.mem_cons.mp h with h' | h'
    · subst h'; exact foldl_max_init_le t x
    · exact foldl_max_le t a x h'

/-- `listMin` is an element of a non-empty list. -/
theorem listMin_mem (l : List ℚ) (h : l ≠ []) : listMin l ∈ l := by
  match l with
  | a :: t =>
    rcases foldl_min_mem t a with h' | h'
    · exact List.mem_cons.mpr (Or.inl ((listMin_cons a t).trans h'))
    · exact List.mem_cons.mpr (Or.inr (by rw [listMin_cons]; exact h'))

/-- `listMin` is below every element. -/
theorem listMin_le (l : List ℚ) (x : ℚ) (h : x ∈ l) : listMin l ≤ x := by
  match l with
  | a :: t =>
    rw [listMin_cons]
    rcases List.mem_cons.mp h with h' | h'
    · subst h'; exact foldl_min_init_le t x
    · exact foldl_min_le t a x h'

/-- Core fact about the drawdown expression of `calculateMetrics` on an
equity list that starts with the 10000 deposit: it is non-negative, and it
vanishes exactly when the equity never drops below its global maximum
after that maximum is first reached. -/
theorem metricsDrawdown_spec (equity : List ℚ) (rest : List ℚ)
    (heq : equity = 10000 :: rest) :
    0 ≤ (listMax equity - listMin (equity.drop (equity.indexOf (listMax equity))))
        / listMax equity * 100 ∧
    ((listMax equity - listMin (equity.drop (equity.indexOf (listMax equity))))
        / listMax equity * 100 = 0 ↔
      ∀ x ∈ equity.drop (equity.indexOf (listMax equity)), x = listMax equity) := by
  have hne : equity ≠ [] := by rw [heq]; exact List.cons_ne_nil _ _
  have hmem : listMax equity ∈ equity := listMax_mem equity hne
  have hpos : 0 < listMax equity := by
    have h10 : (10000 : ℚ) ∈ equity := by rw [heq]; exact List.mem_cons_self _ _
    have := le_listMax equity 10000 h10
    linarith
  have hidx : equity.indexOf (listMax equity) < equity.length :=
    List.indexOf_lt_length.mpr hmem
  have hdropeq : equity.drop (equity.indexOf (listMax equity))
      = listMax equity :: equity.drop (equity.indexOf (listMax equity) + 1) := by
    have := List.drop_eq_getElem_cons hidx
    rwa [List.getElem_indexOf hidx] at this
  have hmemdrop : listMax equity ∈ equity.drop (equity.indexOf (listMax equity)) := by
    rw [hdropeq]; exact List.mem_cons_self _ _
  have hdropne : equity.drop (equity.indexOf (listMax equity)) ≠ [] := by
    rw [hdropeq]; exact List.cons_ne_nil _ _
  have hminle : listMin (equity.drop (equity.indexOf (listMax equity))) ≤ listMax equity :=
    listMin_le _ _ hmemdrop
  refine ⟨?_, ?_⟩
  · have hnum : 0 ≤ listMax equity - listMin (equity.drop (equity.indexOf (listMax equity))) := by
      linarith
    positivity
  · constructor
    · intro h0 x hx
      have hnum : listMax equity - listMin (equity.drop (equity.indexOf (listMax equity))) = 0 := by
        have h' := mul_eq_zero.mp h0
        rcases h' with h' | h'
        · have := div_eq_zero_iff.mp h'
          rcases this with h'' | h''
          · exact h''
          · exact absurd h'' (ne_of_gt hpos)
        · norm_num at h'
      have hminx : listMin (equity.drop (equity.indexOf (listMax equity))) ≤ x :=
        listMin_le _ _ hx
      have hxle : x ≤ listMax equity :=
        le_listMax equity x (List.mem_of_mem_drop hx)
      linarith
    · intro hall
      have hmin_mem := listMin_mem _ hdropne
      have := hall _ hmin_mem
      rw [this]
      simp

/-- Unfolding of the drawdown field of `calculateMetrics` on a
non-empty trade list (source lines 165-169). -/
theorem calculateMetrics_maxDrawdownPercent (trades : List Trade)
    (returns equity : List ℚ) (h : trades ≠ []) :
    (calculateMetrics trades returns equity).maxDrawdownPercent =
      (listMax equity - listMin (equity.drop (equity.indexOf (listMax equity))))
        / listMax equity * 100 := by
  have hlen : ¬ trades.length = 0 := fun hh => h (List.length_eq_zero.mp hh)
  simp only [calculateMetrics, if_neg hlen]

unseal Rat.add Rat.mul Rat.inv Rat.sub in
/-- C1 (counterexample): on the `mddData`/`mddStrategy` run the metric
`maxDrawdownPercent` is 598/315 (about 1.9%), while the maximum of the
per-bar running-peak drawdown series of the same run is 19 (%): the claim
`maxDrawdownPercent = max(drawdown series)` is false on this run — the
equity dips 19% below its first peak before a later higher peak, and the
metric only measures the decline after the global maximum. -/
theorem C1_counterexample :
    (runBacktest mddData mddStrategy).toOption.map
        (fun r => (r.metrics.maxDrawdownPercent, listMax (calculateDrawdown r.equity)))
      = some (598/315, 19) ∧ ((598/315 : ℚ) ≠ 19) := by
  rw [runBacktest_mdd]
  exact ⟨by decide, by decide⟩

/-- C1 (amended): for every successful run with at least one closed trade,
`maxDrawdownPercent` is non-negative, and it is zero exactly when the
equity curve never drops below its global maximum after that maximum is
first reached.  (It is the decline measured from the first global equity
maximum, not the maximum of the running-peak drawdown series.) -/
theorem C1_amended (data : List OHLCVData) (strategy : Strategy)
    (r : BacktestResult) (h : runBacktest data strategy = Except.ok r)
    (hne : r.trades ≠ []) :
    0 ≤ r.metrics.maxDrawdownPercent ∧
    (r.metrics.maxDrawdownPercent = 0 ↔
      ∀ x ∈ r.equity.drop (r.equity.indexOf (listMax r.equity)),
        x = listMax r.equity) := by
  obtain ⟨ht, hm, he, _⟩ := runBacktest_ok data strategy r h
  obtain ⟨rest, hrest⟩ := runLoop_equity_head data strategy
  rw [hm, he]
  rw [calculateMetrics_maxDrawdownPercent _ _ _ (by rw [← ht]; exact hne)]
  exact metricsDrawdown_spec _ rest hrest

/-- C1 (witness): the amended statement instantiated on the concrete
`mddData`/`mddStrategy` run. -/
theorem C1_witness :
    0 ≤ mddResult.metrics.maxDrawdownPercent ∧
    (mddResult.metrics.maxDrawdownPercent = 0 ↔
      ∀ x ∈ mddResult.equity.drop (mddResult.equity.indexOf (listMax mddResult.equity)),
        x = listMax mddResult.equity) :=
  C1_amended mddData mddStrategy mddResult runBacktest_mdd (by decide)

/-- A 10-bar series, well below the 50-bar warm-up offset. -/
def shortData : List OHLCVData := padBars 10

/-- C2: on a 10-bar series the warm-up offset is 50, the presize
`equity.length = 10 - 50 + 1` is negative, and the source throws a JS
RangeError instead of returning the empty result the claim (and §7 of the
spec) promises. -/
theorem C2_shortSeries_throws :
    runBacktest shortData mddStrategy = Except.error "RangeError: Invalid array length" := rfl

unseal Rat.add Rat.mul Rat.inv Rat.sub in
/-- C3 (counterexample): `mddStrategy` sets `positionSize` to 50 (percent),
within (0, 100]; yet the run's first position is opened with quantity 190
units — notional 190 × 50 = 9500, the hardcoded 95% of the 10000
portfolio — and not the 50% sizing (quantity 100, notional 5000) the
claim requires. -/
theorem C3_counterexample :
    mddStrategy.riskManagement.positionSize = 50 ∧
    (runBacktest mddData mddStrategy).toOption.map
        (fun r => (r.trades.map (fun t => t.quantity)).getD 0 0) = some 190 ∧
    (190 : ℚ) ≠ ((⌊(50 : ℚ) / 100 * 10000 / 50⌋ : ℤ) : ℚ) ∧
    (190 : ℚ) * 50 ≠ (50 : ℚ) / 100 * 10000 := by
  refine ⟨rfl, ?_, by decide, by decide⟩
  rw [runBacktest_mdd]
  decide

/-- C3 (amended): whenever the engine opens a position — flat state with
entry conditions true at the bar — the quantity is
`⌊portfolioValue * 0.95 / close⌋`: a hardcoded 95% of portfolio value,
independent of the strategy's `positionSize` setting; the side is long and
the portfolio value is unchanged by the entry. -/
theorem C3_amended (strategy : Strategy) (data : List OHLCVData)
    (i : ℕ) (bar : OHLCVData) (s : RunState)
    (hflat : s.currentPosition = PositionState.flat)
    (henter : checkConditions data strategy.entryConditions i = true) :
    (entryStage strategy data i bar s).positionSize
      = ((⌊s.portfolioValue * (95/100) / bar.close⌋ : ℤ) : ℚ) ∧
    (entryStage strategy data i bar s).currentPosition = PositionState.long ∧
    (entryStage strategy data i bar s).portfolioValue = s.portfolioValue := by
  have h : (decide (s.currentPosition = PositionState.flat) &&
      checkConditions data strategy.entryConditions i) = true := by
    simp [hflat, henter]
  refine ⟨?_, ?_, ?_⟩ <;> simp only [entryStage, h, if_true]

unseal Rat.add Rat.mul Rat.inv Rat.sub in
/-- C3 (witness): the amended sizing rule at the concrete entry of the
`mddData` run (bar 50, close 50, portfolio 10000, quantity 190). -/
theorem C3_witness :
    (initialRunState mddStrategy).currentPosition = PositionState.flat ∧
    checkConditions mddData mddStrategy.entryConditions 50 = true ∧
    ((entryStage mddStrategy mddData 50 (mkBar 50 50) (initialRunState mddStrategy)).positionSize
        = ((⌊(initialRunState mddStrategy).portfolioValue * (95/100) / (mkBar 50 50).close⌋ : ℤ) : ℚ) ∧
      (entryStage mddStrategy mddData 50 (mkBar 50 50) (initialRunState mddStrategy)).currentPosition
        = PositionState.long ∧
      (entryStage mddStrategy mddData 50 (mkBar 50 50) (initialRunState mddStrategy)).portfolioValue
        = (initialRunState mddStrategy).portfolioValue) :=
  ⟨rfl, by decide,
    C3_amended mddStrategy mddData 50 (mkBar 50 50) (initialRunState mddStrategy) rfl (by decide)⟩

/-- A 53-bar series: 50 padding bars, then closes 50, 60, 70 at
timestamps 50..52. -/
def reentryData : List OHLCVData :=
  padBars 50 ++ [mkBar 50 50, mkBar 51 60, mkBar 52 70]

/-- Entry whenever the close is below 100; EMPTY exit condition list —
`conditions.every` on `[]` is vacuously true, so the exit fires on every
bar with an open position.  Wide stop (50%) and take profit (1000%) so
neither override interferes. -/
def reentryStrategy : Strategy :=
  { name := "reentry", asset := "TEST"
    entryConditions := [{ id := "e1", indicator := "Price", operator := "<", value := 100 }]
    exitConditions := []
    riskManagement := { stopLoss := 50, takeProfit := 1000, positionSize := 10 } }

/-- The loop step of the `reentryData`/`reentryStrategy` run. -/
def reentryStep (s : RunState) (i : ℕ) : RunState :=
  stepBar reentryStrategy reentryData (1 - reentryStrategy.riskManagement.stopLoss / 100)
    (1 + reentryStrategy.riskManagement.takeProfit / 100) s i

/-- First trade of the re-entry run, closed at bar 51. -/
def reentryTrade1 : Trade :=
  { id := "trade_1", entryPrice := 50, exitPrice := 60, entryTime := 50, exitTime := 51
    quantity := 190, pnl := 1900, pnlPercent := 20, type := PositionState.long }

/-- Second trade of the re-entry run: it was OPENED at bar 51, the very
bar on which the first trade was closed. -/
def reentryTrade2 : Trade :=
  { id := "trade_2", entryPrice := 60, exitPrice := 70, entryTime := 51, exitTime := 52
    quantity := 188, pnl := 1880, pnlPercent := 50/3, type := PositionState.long }

/-- Re-entry run state after bar 50. -/
def reentryState1 : RunState :=
  { trades := [], currentPosition := PositionState.long, entryPrice := 50, entryTime := 50
    positionSize := 190, portfolioValue := 10000, equity := [10000, 10000], returns := [] }

/-- Re-entry run state after bar 51: trade 1 closed AND a new position
opened at the same bar. -/
def reentryState2 : RunState :=
  { trades := [reentryTrade1], currentPosition := PositionState.long, entryPrice := 60
    entryTime := 51, positionSize := 188, portfolioValue := 11900
    equity := [10000, 10000, 11900], returns := [20] }

/-- Re-entry run state after bar 52. -/
def reentryState3 : RunState :=
  { trades := [reentryTrade1, reentryTrade2], currentPosition := PositionState.long
    entryPrice := 70, entryTime := 52, positionSize := 187, portfolioValue := 13780
    equity := [10000, 10000, 11900, 13780], returns := [20, 50/3] }

unseal Rat.add Rat.mul Rat.inv Rat.sub in
theorem reentryStep50 : reentryStep (initialRunState reentryStrategy) 50 = reentryState1 := by
  decide

unseal Rat.add Rat.mul Rat.inv Rat.sub in
theorem reentryStep51 : reentryStep reentryState1 51 = reentryState2 := by
  decide

unseal Rat.add Rat.mul Rat.inv Rat.sub in
theorem reentryStep52 : reentryStep reentryState2 52 = reentryState3 := by
  decide

theorem runLoop_reentry : runLoop reentryData reentryStrategy = reentryState3 := by
  have h : runLoop reentryData reentryStrategy
      = (List.range' 50 3).foldl reentryStep (initialRunState reentryStrategy) := rfl
  have hr : List.range' 50 3 = [50, 51, 52] := rfl
  rw [h, hr]
  simp only [List.foldl]
  rw [reentryStep50, reentryStep51, reentryStep52]

unseal Rat.add Rat.mul Rat.inv Rat.sub in
/-- C4 (counterexample): on the re-entry run the engine emits two trades;
the second trade's entry timestamp (51) equals the first trade's exit
timestamp (51): a position closed at bar 51 re-opened at that same
bar 51, which the claim says never happens. -/
theorem C4_counterexample :
    (runBacktest reentryData reentryStrategy).toOption.map
        (fun r => r.trades.map (fun t => (t.entryTime, t.exitTime)))
      = some [(50, 51), (51, 52)] ∧
    ((51 : ℚ), (51 : ℚ)).1 = ((51 : ℚ), (51 : ℚ)).2 := by
  constructor
  · unfold runBacktest
    rw [if_neg (by decide)]
    dsimp only
    rw [runLoop_reentry]
    decide
  · rfl


/-- When a position is open and the exit conditions hold at bar `i`, the
exit block fires: the state goes flat and exactly one trade is appended,
stamped with the bar's timestamp as exit time. -/
theorem exitStage_fires (strategy : Strategy) (data : List OHLCVData)
    (stopM takeM : ℚ) (i : ℕ) (bar : OHLCVData) (s : RunState)
    (hflat : ¬ s.currentPosition = PositionState.flat)
    (hexit : checkConditions data strategy.exitConditions i = true) :
    (exitStage strategy data stopM takeM i bar s).currentPosition = PositionState.flat ∧
    ∃ t : Trade, (exitStage strategy data stopM takeM i bar s).trades = s.trades ++ [t] ∧
      t.exitTime = bar.timestamp := by
  unfold exitStage
  rw [if_neg hflat]
  dsimp only
  rw [hexit]
  simp only [Bool.true_or, if_true]
  exact ⟨trivial, ⟨_, rfl, rfl⟩⟩

/-- C4 (amended): within one bar the exit block runs before the entry
block, and the entry block runs whenever the state is flat — including
right after a same-bar close.  When a long position's exit conditions
fire at bar `i` and the entry conditions also hold at bar `i`, the step
appends the closed trade (exit timestamp = the bar's timestamp) AND
opens a new position whose entry timestamp is that same bar's timestamp:
re-entry happens on the close bar itself, not at bar `i + 1`. -/
theorem C4_amended (strategy : Strategy) (data : List OHLCVData)
    (stopM takeM : ℚ) (i : ℕ) (bar : OHLCVData) (s : RunState)
    (hbar : data.get? i = some bar) (hclose : ¬ bar.close = 0)
    (hlong : s.currentPosition = PositionState.long)
    (hexit : checkConditions data strategy.exitConditions i = true)
    (henter : checkConditions data strategy.entryConditions i = true) :
    ∃ t : Trade,
      (stepBar strategy data stopM takeM s i).trades = s.trades ++ [t] ∧
      t.exitTime = bar.timestamp ∧
      (stepBar strategy data stopM takeM s i).currentPosition = PositionState.long ∧
      (stepBar strategy data stopM takeM s i).entryTime = bar.timestamp := by
  have hflat : ¬ s.currentPosition = PositionState.flat := by
    rw [hlong]; exact fun hh => PositionState.noConfusion hh
  have hstep : stepBar strategy data stopM takeM s i
      = recordEquity (entryStage strategy data i bar
          (exitStage strategy data stopM takeM i bar s)) := by
    unfold stepBar
    rw [hbar]
    dsimp only
    rw [if_neg hclose]
  obtain ⟨hcp, t, htr, hxt⟩ :=
    exitStage_fires strategy data stopM takeM i bar s hflat hexit
  rcases entryStage_spec strategy data i bar
      (exitStage strategy data stopM takeM i bar s) with ⟨_, hno⟩ | ⟨_, _, hen⟩
  · exact absurd ⟨hcp, henter⟩ hno
  · refine ⟨t, ?_, hxt, ?_, ?_⟩
    · rw [hstep, hen]
      simpa [recordEquity] using htr
    · rw [hstep, hen]
      rfl
    · rw [hstep, hen]
      rfl

unseal Rat.add Rat.mul Rat.inv Rat.sub in
/-- C4 (witness): the amended same-bar re-entry rule instantiated at
bar 51 of the re-entry run, where trade 1 closes and trade 2 opens. -/
theorem C4_witness :
    reentryData.get? 51 = some (mkBar 51 60) ∧
    (¬ (mkBar 51 60).close = 0) ∧
    reentryState1.currentPosition = PositionState.long ∧
    checkConditions reentryData reentryStrategy.exitConditions 51 = true ∧
    checkConditions reentryData reentryStrategy.entryConditions 51 = true ∧
    (∃ t : Trade,
      (stepBar reentryStrategy reentryData
          (1 - reentryStrategy.riskManagement.stopLoss / 100)
          (1 + reentryStrategy.riskManagement.takeProfit / 100)
          reentryState1 51).trades = reentryState1.trades ++ [t] ∧
      t.exitTime = (mkBar 51 60).timestamp ∧
      (stepBar reentryStrategy reentryData
          (1 - reentryStrategy.riskManagement.stopLoss / 100)
          (1 + reentryStrategy.riskManagement.takeProfit / 100)
          reentryState1 51).currentPosition = PositionState.long ∧
      (stepBar reentryStrategy reentryData
          (1 - reentryStrategy.riskManagement.stopLoss / 100)
          (1 + reentryStrategy.riskManagement.takeProfit / 100)
          reentryState1 51).entryTime = (mkBar 51 60).timestamp) :=
  ⟨by decide, by decide, rfl, rfl, by decide,
    C4_amended reentryStrategy reentryData
      (1 - reentryStrategy.riskManagement.stopLoss / 100)
      (1 + reentryStrategy.riskManagement.takeProfit / 100)
      51 (mkBar 51 60) reentryState1
      (by decide) (by decide) rfl rfl (by decide)⟩

unseal Rat.add Rat.mul Rat.inv Rat.sub in
/-- C5: the indicator cache key `EMA_${period}_${data.length}` carries the
period and the input LENGTH but not the input values, so two distinct
series of equal length share a cache entry.  Computing EMA(2) of [1, 3]
populates the cache; the subsequent cached computation for [5, 7] returns
[_, 2] — the series of [1, 3] — while a cache-disabled recomputation
returns [_, 6].  A cache hit is therefore not equal to the cache-miss
recomputation, and one series' cached result is served for the other. -/
theorem C5_cache_stale :
    (calculateEMACached [] [1, 3] 2).1 = [none, some 2] ∧
    (calculateEMACached (calculateEMACached [] [1, 3] 2).2 [5, 7] 2).1 = [none, some 2] ∧
    calculateEMA [5, 7] 2 = [none, some 6] ∧
    (calculateEMACached (calculateEMACached [] [1, 3] 2).2 [5, 7] 2).1
      ≠ calculateEMA [5, 7] 2 := by
  refine ⟨by decide, by decide, by decide, by decide⟩

/-- A 52-bar series: 50 padding bars, then closes 50, 60. -/
def unknownData : List OHLCVData := padBars 50 ++ [mkBar 50 50, mkBar 51 60]

/-- A strategy whose entry condition references the indicator name
`SuperTrend (7)`, which the engine does not support. -/
def unknownStrategy : Strategy :=
  { name := "unknown", asset := "TEST"
    entryConditions := [{ id := "e1", indicator := "SuperTrend (7)", operator := ">", value := -1 }]
    exitConditions := []
    riskManagement := { stopLoss := 50, takeProfit := 1000, positionSize := 10 } }

/-- The loop step of the `unknownData`/`unknownStrategy` run. -/
def unknownStep (s : RunState) (i : ℕ) : RunState :=
  stepBar unknownStrategy unknownData (1 - unknownStrategy.riskManagement.stopLoss / 100)
    (1 + unknownStrategy.riskManagement.takeProfit / 100) s i

/-- Unknown-indicator run state after bar 50: the unsupported reference
evaluated to 0, `0 > -1` passed, and a position was opened. -/
def unknownState1 : RunState :=
  { trades := [], currentPosition := PositionState.long, entryPrice := 50, entryTime := 50
    positionSize := 190, portfolioValue := 10000, equity := [10000, 10000], returns := [] }

/-- Unknown-indicator run state after bar 51: the empty exit list closed
the trade, and the zero-valued entry condition re-opened. -/
def unknownState2 : RunState :=
  { trades := [{ id := "trade_1", entryPrice := 50, exitPrice := 60, entryTime := 50
                 exitTime := 51, quantity := 190, pnl := 1900, pnlPercent := 20
                 type := PositionState.long }]
    currentPosition := PositionState.long, entryPrice := 60, entryTime := 51
    positionSize := 188, portfolioValue := 11900
    equity := [10000, 10000, 11900], returns := [20] }

unseal Rat.add Rat.mul Rat.inv Rat.sub in
theorem unknownStep50 : unknownStep (initialRunState unknownStrategy) 50 = unknownState1 := by
  decide

unseal Rat.add Rat.mul Rat.inv Rat.sub in
theorem unknownStep51 : unknownStep unknownState1 51 = unknownState2 := by
  decide

theorem runLoop_unknown : runLoop unknownData unknownStrategy = unknownState2 := by
  have h : runLoop unknownData unknownStrategy
      = (List.range' 50 2).foldl unknownStep (initialRunState unknownStrategy) := rfl
  have hr : List.range' 50 2 = [50, 51] := rfl
  rw [h, hr]
  simp only [List.foldl]
  rw [unknownStep50, unknownStep51]

unseal Rat.add Rat.mul Rat.inv Rat.sub in
/-- C6 (counterexample): with a condition referencing the unsupported
indicator `SuperTrend (7)`, `getIndicatorValue` silently returns 0 (it
only logs a console warning), the comparison `0 > -1` passes, and
`runBacktest` runs the whole simulation and emits a trade — no
configuration error is ever raised, before or during the run. -/
theorem C6_counterexample :
    getIndicatorValue unknownData "SuperTrend (7)" 50 = 0 ∧
    (runBacktest unknownData unknownStrategy).toOption.map (fun r => r.trades.length)
      = some 1 := by
  constructor
  · decide
  · unfold runBacktest
    rw [if_neg (by decide)]
    dsimp only
    rw [runLoop_unknown]
    decide

/-- C6 (amended): a condition whose indicator name is not one of the five
supported references and does not start with `EMA_` is not a
configuration error: `getIndicatorValue` logs a warning and evaluates it
as the value 0, and the simulation proceeds with that zero. -/
theorem C6_amended (data : List OHLCVData) (indicator : String) (index : ℕ)
    (h1 : ¬ indicator = "EMA (20)")
    (h2 : ¬ indicator = "RSI (14)")
    (h3 : ¬ indicator = "MACD (12, 26, 9)")
    (h4 : ¬ indicator = "Bollinger Bands (20, 2)")
    (h5 : ¬ indicator = "Price")
    (h6 : ¬ "EMA_".toList.isPrefixOf indicator.toList = true) :
    getIndicatorValue data indicator index = 0 := by
  simp only [getIndicatorValue, if_neg h1, if_neg h2, if_neg h3, if_neg h4, if_neg h5,
    if_neg h6]

unseal Rat.add Rat.mul Rat.inv Rat.sub in
/-- C6 (witness): the amended silent-zero behaviour at the concrete
unsupported name `SuperTrend (7)`. -/
theorem C6_witness :
    (¬ "SuperTrend (7)" = "EMA (20)") ∧
    (¬ "SuperTrend (7)" = "RSI (14)") ∧
    (¬ "SuperTrend (7)" = "MACD (12, 26, 9)") ∧
    (¬ "SuperTrend (7)" = "Bollinger Bands (20, 2)") ∧
    (¬ "SuperTrend (7)" = "Price") ∧
    (¬ "EMA_".toList.isPrefixOf "SuperTrend (7)".toList = true) ∧
    getIndicatorValue unknownData "SuperTrend (7)" 50 = 0 :=
  ⟨by decide, by decide, by decide, by decide, by decide, by decide,
    C6_amended unknownData "SuperTrend (7)" 50 (by decide) (by decide) (by decide)
      (by decide) (by decide) (by decide)⟩

/-- A 52-bar series: 50 padding bars, then closes 50, 60, used to hold a
position open through a bar whose close moved away from the entry. -/
def mtmData : List OHLCVData := padBars 50 ++ [mkBar 50 50, mkBar 51 60]

/-- The loop step of the `mtmData`/`mddStrategy` run (same strategy as
the drawdown run: entry at price 50, exit at price 49, stop 20%, take
profit 100% — none of which fires at close 60). -/
def mtmStep (s : RunState) (i : ℕ) : RunState :=
  stepBar mddStrategy mtmData (1 - mddStrategy.riskManagement.stopLoss / 100)
    (1 + mddStrategy.riskManagement.takeProfit / 100) s i

/-- Mark-to-market run state after bar 50 (entry at 50, 190 units). -/
def mtmState1 : RunState :=
  { trades := [], currentPosition := PositionState.long, entryPrice := 50, entryTime := 50
    positionSize := 190, portfolioValue := 10000, equity := [10000, 10000], returns := [] }

/-- Mark-to-market run state after bar 51: the position is still open at
close 60, yet the recorded equity entry is the unchanged 10000. -/
def mtmState2 : RunState :=
  { trades := [], currentPosition := PositionState.long, entryPrice := 50, entryTime := 50
    positionSize := 190, portfolioValue := 10000
    equity := [10000, 10000, 10000], returns := [] }

unseal Rat.add Rat.mul Rat.inv Rat.sub in
theorem mtmStep50 : mtmStep (initialRunState mddStrategy) 50 = mtmState1 := by
  decide

unseal Rat.add Rat.mul Rat.inv Rat.sub in
theorem mtmStep51 : mtmStep mtmState1 51 = mtmState2 := by
  decide

theorem runLoop_mtm : runLoop mtmData mddStrategy = mtmState2 := by
  have h : runLoop mtmData mddStrategy
      = (List.range' 50 2).foldl mtmStep (initialRunState mddStrategy) := rfl
  have hr : List.range' 50 2 = [50, 51] := rfl
  rw [h, hr]
  simp only [List.foldl]
  rw [mtmStep50, mtmStep51]

unseal Rat.add Rat.mul Rat.inv Rat.sub in
/-- C7 (counterexample): at bar 51 a long position of 190 units entered
at 50 is open and the close is 60; cash plus mark-to-market is
(10000 - 190·50) + 190·60 = 11900, but the equity entry the engine
records for that bar is the unchanged portfolio value 10000 — open
positions are not marked to market and unrealized P&L never appears in
the equity curve. -/
theorem C7_counterexample :
    (runLoop mtmData mddStrategy).currentPosition = PositionState.long ∧
    (runLoop mtmData mddStrategy).entryPrice = 50 ∧
    (runLoop mtmData mddStrategy).positionSize = 190 ∧
    (runLoop mtmData mddStrategy).equity = [10000, 10000, 10000] ∧
    ((10000 : ℚ) - 190 * 50) + 190 * 60 ≠ 10000 := by
  rw [runLoop_mtm]
  exact ⟨rfl, rfl, rfl, rfl, by decide⟩

/-- C7 (amended): the equity value recorded at a bar is the current
`portfolioValue`, which changes only when a trade is closed (realized
P&L); opening a position is cash-neutral and an open position's
unrealized P&L never enters the equity curve.  Each step either skips the
bar entirely (missing bar or zero close) or appends exactly the post-step
portfolio value; when no trade closed on the bar the appended value is
the portfolio value the state already had. -/
theorem C7_amended (strategy : Strategy) (data : List OHLCVData)
    (stopM takeM : ℚ) (s : RunState) (i : ℕ) :
    ((stepBar strategy data stopM takeM s i).equity = s.equity ∧
     (stepBar strategy data stopM takeM s i).portfolioValue = s.portfolioValue) ∨
    ((stepBar strategy data stopM takeM s i).equity
        = s.equity ++ [(stepBar strategy data stopM takeM s i).portfolioValue] ∧
     ((stepBar strategy data stopM takeM s i).trades = s.trades →
       (stepBar strategy data stopM takeM s i).portfolioValue = s.portfolioValue)) := by
  rcases stepBar_spec strategy data stopM takeM s i with h | ⟨bar, _, _, h⟩
  · rw [h]; exact Or.inl ⟨rfl, rfl⟩
  · right
    have hkeep := entryStage_keeps strategy data i bar
      (exitStage strategy data stopM takeM i bar s)
    constructor
    · rw [h]
      simp only [recordEquity]
      rw [hkeep.2.1, exitStage_keeps_equity]
    · intro htr
      rw [h] at htr ⊢
      simp only [recordEquity] at htr ⊢
      rw [hkeep.1] at htr
      rw [hkeep.2.2.1]
      rcases exitStage_spec strategy data stopM takeM i bar s with h' | ⟨_, t, h', _⟩
      · rw [h']
      · rw [h'] at htr
        simp at htr

/-- Closed form of the chained EMA recurrence: `emaAux data m i prev k`
is the value after applying the recurrence `k` times starting from `prev`
at index `i` (a proof-side helper for reasoning about `emaLoop`). -/
def emaAux (data : List ℚ) (mult : ℚ) (i : ℕ) (prev : ℚ) : ℕ → ℚ
  | 0 => prev
  | Nat.succ k =>
    (data.getD (i + k) 0 - emaAux data mult i prev k) * mult + emaAux data mult i prev k

/-- `emaLoop` produces exactly `n` values. -/
theorem emaLoop_length (data : List ℚ) (mult : ℚ) :
    ∀ (n i : ℕ) (prev : ℚ), (emaLoop data mult i n prev).length = n := by
  intro n
  induction n with
  | zero => intro i prev; rfl
  | succ n ih =>
    intro i prev
    simp only [emaLoop, List.length_cons, ih]

/-- Shifting the start of the recurrence by one step. -/
theorem emaAux_shift (data : List ℚ) (mult : ℚ) (i : ℕ) (prev : ℚ) :
    ∀ j : ℕ, emaAux data mult (i + 1) ((data.getD i 0 - prev) * mult + prev) j
      = emaAux data mult i prev (j + 1) := by
  intro j
  induction j with
  | zero => rfl
  | succ j ih =>
    show (data.getD (i + 1 + j) 0 - _) * mult + _ = (data.getD (i + (j + 1)) 0 - _) * mult + _
    rw [ih]
    have : i + 1 + j = i + (j + 1) := by omega
    rw [this]

/-- The `k`-th value of `emaLoop` is the `(k+1)`-fold recurrence. -/
theorem emaLoop_getD (data : List ℚ) (mult : ℚ) :
    ∀ (n k i : ℕ) (prev : ℚ), k < n →
      (emaLoop data mult i n prev).getD k 0 = emaAux data mult i prev (k + 1) := by
  intro n
  induction n with
  | zero => intro k i prev hk; omega
  | succ n ih =>
    intro k i prev hk
    match k with
    | 0 => rfl
    | Nat.succ k =>
      show (emaLoop data mult (i + 1) n ((data.getD i 0 - prev) * mult + prev)).getD k 0 = _
      rw [ih k (i + 1) _ (by omega)]
      rw [emaAux_shift]

/-- Setting one slot of an all-holes array splits it around the value. -/
theorem replicate_set (v : ℚ) : ∀ (n k : ℕ), k < n →
    (List.replicate n (none : Option ℚ)).set k (some v)
      = List.replicate k none ++ some v :: List.replicate (n - k - 1) none := by
  intro n
  induction n with
  | zero => intro k hk; omega
  | succ n ih =>
    intro k hk
    match k with
    | 0 => simp [List.replicate_succ]
    | Nat.succ k =>
      rw [List.replicate_succ, List.set_cons_succ, ih k (by omega)]
      simp [List.replicate_succ]

/-- Reading an all-holes array gives a hole, in or out of range. -/
theorem getD_replicate_none (n i : ℕ) :
    (List.replicate n (none : Option ℚ)).getD i none = none := by
  rcases Nat.lt_or_ge i n with h | h
  · rw [List.getD_eq_getElem?_getD, List.getElem?_replicate, if_pos h]; rfl
  · rw [List.getD_eq_getElem?_getD, List.getElem?_replicate, if_neg (by omega)]; rfl

/-- Reading a fully-defined region through `getD`. -/
theorem getD_map_some (L : List ℚ) (j : ℕ) (h : j < L.length) :
    (L.map some).getD j none = some (L.getD j 0) := by
  rw [List.getD_eq_getElem?_getD, List.getElem?_map, List.getElem?_eq_getElem h]
  simp [List.getD_eq_getElem?_getD, List.getElem?_eq_getElem h]

/-- For inputs of at least `period` elements, `calculateEMA` is holes up
to `period - 2`, the SMA seed at `period - 1`, then the recurrence
values; this also covers the boundary `length = period`, where the seed
assignment lands on the last slot. -/
theorem calculateEMA_repr (data : List ℚ) (period : ℕ) (hp : 1 ≤ period)
    (hlen : period ≤ data.length) :
    calculateEMA data period
      = List.replicate (period - 1) none ++
          some (((data.take period).sum) / (period : ℚ)) ::
          (emaLoop data (2 / ((period : ℚ) + 1)) period (data.length - period)
            (((data.take period).sum) / (period : ℚ))).map some := by
  by_cases h : data.length ≤ period
  · have heq : data.length = period := le_antisymm h hlen
    unfold calculateEMA jsArraySet
    rw [if_pos h, List.length_replicate, if_pos (by omega), replicate_set _ _ _ (by omega)]
    rw [heq]
    have h0 : period - (period - 1) - 1 = 0 := by omega
    have h1 : period - period = 0 := by omega
    rw [h0, h1]
    rfl
  · unfold calculateEMA
    rw [if_neg h]

/-- With enough input, the EMA series has the input's length. -/
theorem calculateEMA_length_warm (data : List ℚ) (period : ℕ) (hp : 1 ≤ period)
    (hlen : period ≤ data.length) :
    (calculateEMA data period).length = data.length := by
  rw [calculateEMA_repr data period hp hlen]
  simp [emaLoop_length]
  omega

/-- From index `period - 1` on, the EMA slot holds the chained
recurrence value. -/
theorem calculateEMA_getD_warm (data : List ℚ) (period : ℕ) (hp : 1 ≤ period)
    (hlen : period ≤ data.length) :
    ∀ i, period - 1 ≤ i → i < data.length →
      (calculateEMA data period).getD i none
        = some (emaAux data (2 / ((period : ℚ) + 1)) period
            (((data.take period).sum) / (period : ℚ)) (i - (period - 1))) := by
  intro i h1 h2
  rw [calculateEMA_repr data period hp hlen]
  rw [List.getD_append_right _ _ _ _ (by simpa using h1)]
  rw [List.length_replicate]
  cases h0 : i - (period - 1) with
  | zero => rfl
  | succ j =>
    show ((emaLoop data (2 / ((period : ℚ) + 1)) period (data.length - period)
      (((data.take period).sum) / (period : ℚ))).map some).getD j none = _
    have hj : j < data.length - period := by omega
    rw [getD_map_some _ _ (by rw [emaLoop_length]; exact hj)]
    rw [emaLoop_getD data _ (data.length - period) j period _ hj]

/-- Below index `period - 1`, the EMA slot is undefined. -/
theorem calculateEMA_getD_cold (data : List ℚ) (period : ℕ) (hp : 1 ≤ period)
    (hlen : period ≤ data.length) :
    ∀ i, i < period - 1 → (calculateEMA data period).getD i none = none := by
  intro i h1
  rw [calculateEMA_repr data period hp hlen]
  rw [List.getD_append _ _ _ _ (by simpa using h1)]
  exact getD_replicate_none _ _

/-- C8 (amended): for every input with at least `period` elements and
`period ≥ 1`, `calculateEMA` returns a series of the input's length whose
value at `period - 1` is the SMA of the first `period` inputs, whose
value at each `period ≤ i < length` satisfies
`ema[i] = (price[i] - ema[i-1]) * k + ema[i-1]` with `k = 2/(period+1)`,
and whose slots below `period - 1` are undefined holes.  (The claim's
equal-length guarantee fails for inputs SHORTER than `period`: the seed
write extends the array to length `period`.) -/
theorem C8_amended (data : List ℚ) (period : ℕ) (hp : 1 ≤ period)
    (hlen : period ≤ data.length) :
    (calculateEMA data period).length = data.length ∧
    (calculateEMA data period).getD (period - 1) none
      = some (((data.take period).sum) / (period : ℚ)) ∧
    (∀ i, period ≤ i → i < data.length →
      ∃ a : ℚ, (calculateEMA data period).getD (i - 1) none = some a ∧
        (calculateEMA data period).getD i none
          = some ((data.getD i 0 - a) * (2 / ((period : ℚ) + 1)) + a)) ∧
    (∀ i, i < period - 1 → (calculateEMA data period).getD i none = none) := by
  refine ⟨calculateEMA_length_warm data period hp hlen, ?_, ?_,
    calculateEMA_getD_cold data period hp hlen⟩
  · have h := calculateEMA_getD_warm data period hp hlen (period - 1) (le_refl _) (by omega)
    rw [h, Nat.sub_self]
    rfl
  · intro i hpi hi
    refine ⟨emaAux data (2 / ((period : ℚ) + 1)) period
      (((data.take period).sum) / (period : ℚ)) (i - period), ?_, ?_⟩
    · have h := calculateEMA_getD_warm data period hp hlen (i - 1) (by omega) (by omega)
      have harg : (i - 1) - (period - 1) = i - period := by omega
      rw [h, harg]
    · have h := calculateEMA_getD_warm data period hp hlen i (by omega) hi
      have harg : i - (period - 1) = (i - period) + 1 := by omega
      rw [h, harg]
      show some ((data.getD (period + (i - period)) 0 - _) * _ + _) = _
      have hidx : period + (i - period) = i := by omega
      rw [hidx]

unseal Rat.add Rat.mul Rat.inv Rat.sub in
/-- C8 (counterexample): `calculateEMA [1, 2, 3] 10` returns a series of
length 10, not of the input's length 3 — the JS seed assignment
`ema[period - 1] = sum / period` extends the array past the input, and
the seed is the sum of the 3 available inputs over 10, not an SMA of 10
inputs.  The claim's "series of equal length to the input" is false for
inputs shorter than the period. -/
theorem C8_counterexample :
    (calculateEMA [1, 2, 3] 10).length = 10 ∧
    ([1, 2, 3] : List ℚ).length = 3 ∧
    (calculateEMA [1, 2, 3] 10).length ≠ ([1, 2, 3] : List ℚ).length := by
  refine ⟨by decide, by decide, by decide⟩

unseal Rat.add Rat.mul Rat.inv Rat.sub in
/-- C8 (witness): the amended EMA contract instantiated at the concrete
input [1, 2, 3, 4] with period 2. -/
theorem C8_witness :
    1 ≤ 2 ∧ 2 ≤ ([1, 2, 3, 4] : List ℚ).length ∧
    ((calculateEMA [1, 2, 3, 4] 2).length = ([1, 2, 3, 4] : List ℚ).length ∧
     (calculateEMA [1, 2, 3, 4] 2).getD (2 - 1) none
       = some (((([1, 2, 3, 4] : List ℚ).take 2).sum) / (2 : ℚ)) ∧
     (∀ i, 2 ≤ i → i < ([1, 2, 3, 4] : List ℚ).length →
       ∃ a : ℚ, (calculateEMA [1, 2, 3, 4] 2).getD (i - 1) none = some a ∧
         (calculateEMA [1, 2, 3, 4] 2).getD i none
           = some ((([1, 2, 3, 4] : List ℚ).getD i 0 - a) * (2 / ((2 : ℚ) + 1)) + a)) ∧
     (∀ i, i < 2 - 1 → (calculateEMA [1, 2, 3, 4] 2).getD i none = none)) :=
  ⟨by decide, by decide, C8_amended [1, 2, 3, 4] 2 (by decide) (by decide)⟩

/-- C9: every trade emitted by a successful run satisfies the exact P&L
identity: `pnl = (exitPrice - entryPrice) * quantity` for a long trade
and `pnl = (entryPrice - exitPrice) * quantity` for a short trade (the
short case holds vacuously — the engine only ever emits long trades). -/
theorem C9_pnl_exact (data : List OHLCVData) (strategy : Strategy)
    (r : BacktestResult) (h : runBacktest data strategy = Except.ok r) :
    ∀ t ∈ r.trades,
      (t.type = PositionState.long → t.pnl = (t.exitPrice - t.entryPrice) * t.quantity) ∧
      (t.type = PositionState.short → t.pnl = (t.entryPrice - t.exitPrice) * t.quantity) := by
  obtain ⟨ht, _, _, _⟩ := runBacktest_ok data strategy r h
  rw [ht]
  intro t htmem
  obtain ⟨hty, hpnl⟩ := (runLoop_trades_inv data strategy).2 t htmem
  refine ⟨fun _ => hpnl, fun hshort => ?_⟩
  rw [hty] at hshort
  exact PositionState.noConfusion hshort

/-- C9 (witness): the P&L identity at the first trade of the concrete
`mddData` run (long, entry 50, exit 40, quantity 190, pnl -1900). -/
theorem C9_witness :
    runBacktest mddData mddStrategy = Except.ok mddResult ∧
    mddTrade1 ∈ mddResult.trades ∧
    ((mddTrade1.type = PositionState.long →
        mddTrade1.pnl = (mddTrade1.exitPrice - mddTrade1.entryPrice) * mddTrade1.quantity) ∧
     (mddTrade1.type = PositionState.short →
        mddTrade1.pnl = (mddTrade1.entryPrice - mddTrade1.exitPrice) * mddTrade1.quantity)) :=
  ⟨runBacktest_mdd, by decide,
    C9_pnl_exact mddData mddStrategy mddResult runBacktest_mdd mddTrade1 (by decide)⟩

/-- C10: the engine is long-only — every trade of every successful run
has type long, and the loop's position state is never short. -/
theorem C10_long_only (data : List OHLCVData) (strategy : Strategy)
    (r : BacktestResult) (h : runBacktest data strategy = Except.ok r) :
    (∀ t ∈ r.trades, t.type = PositionState.long) ∧
    (runLoop data strategy).currentPosition ≠ PositionState.short := by
  obtain ⟨ht, _, _, _⟩ := runBacktest_ok data strategy r h
  rw [ht]
  exact ⟨fun t htm => ((runLoop_trades_inv data strategy).2 t htm).1,
    (runLoop_trades_inv data strategy).1⟩

/-- C10 (witness): the long-only invariant at the concrete `mddData` run
(three trades, all long). -/
theorem C10_witness :
    runBacktest mddData mddStrategy = Except.ok mddResult ∧
    ((∀ t ∈ mddResult.trades, t.type = PositionState.long) ∧
     (runLoop mddData mddStrategy).currentPosition ≠ PositionState.short) :=
  ⟨runBacktest_mdd, C10_long_only mddData mddStrategy mddResult runBacktest_mdd⟩
